import Mathlib

/-!
# Workflow-task notifications and helm release names

A shallow embedding of

* `pkg/microservice/aslan/core/common/service/instantmessage/workflow_task.go`
  (`SendWorkflowTaskNotifications`, `SendWorkflowTaskAproveNotifications`, and the
  build/freestyle block of `getNotificationContent`), and
* `pkg/util/helm.go` (`GeneReleaseName`).

Conventions of the embedding.

* The strings that the notification entry points and `GeneReleaseName` only compare,
  concatenate and search are Lean `String`s. The strings of the job block, which the code
  measures and slices in bytes, are byte sequences (`GoString`).
* Go's `text/template` is a parameter of the model (`TemplateLib`).
* A Go call returning `(*T, error)` is a pair `Option T × Option String`: the pointer
  (`none` for `nil`) and the error (`none` for `nil`).
* A run of a notification entry point is its list of collaborator calls (`Event`) together
  with what the Go function does at the end (`Ret`): return `nil`, return an error, or
  panic on a nil dereference / nil function call.
* `log.Error` calls are not part of the trace; they do not influence control flow.
-/

set_option linter.unusedVariables false
set_option maxRecDepth 100000

namespace Instantmessage

/-! ## Data model -/

/-- The Go type `config.Status` is a string type. -/
abbrev Status := String

/-- Modelled from the spec: the `config` package is not part of the sources at hand; the
initial status of a task, `config.StatusCreated`. -/
def StatusCreated : Status := "created"

/-- Modelled from the spec: `config.StatusRunning`, the in-progress status. -/
def StatusRunning : Status := "running"

/-- Modelled from the spec: `config.StatusPassed`. -/
def StatusPassed : Status := "passed"

/-- Modelled from the spec: `config.StatusFailed`. -/
def StatusFailed : Status := "failed"

/-- Modelled from the spec: `config.StatusChanged`, the status-changed pseudo-status a rule
can subscribe to. -/
def StatusChanged : Status := "changed"

/-- Modelled from the spec: `config.StatusWaitingApprove`, the waiting-for-approval
pseudo-status a rule can subscribe to. -/
def StatusWaitingApprove : Status := "waitforapprove"

/-- The fields of `models.NotifyCtl` read by the notification entry points. -/
structure NotifyCtl where
  Enabled : Bool
  WebHookType : String
  NotifyTypes : List String
  deriving DecidableEq, Repr

/-- The fields of `models.WorkflowV4` read by the notification entry points. -/
structure WorkflowV4 where
  Name : String
  NotifyCtls : List NotifyCtl
  deriving DecidableEq, Repr

/-- The fields of `models.WorkflowTask` read by the notification entry points. -/
structure WorkflowTask where
  WorkflowName : String
  WorkflowDisplayName : String
  TaskID : Int
  ProjectName : String
  TaskCreator : String
  StartTime : Int
  Status : Status
  deriving DecidableEq, Repr

/-- Result of a content composer, `(title, content, larkCard, err)` in Go, or a panic
raised while composing. -/
inductive Composed (Card : Type) where
  | ok (title content : String) (card : Option Card)
  | err (e : String)
  | panic
  deriving DecidableEq, Repr

/-- The collaborators of `Service`. The two composers are parameters here because they
read the wall clock and the process configuration. -/
structure Service (Card : Type) where
  /-- The call `w.workflowV4Coll.Find(name)`. -/
  workflowV4Find : String → Option WorkflowV4 × Option String
  /-- The call `w.workflowTaskV4Coll.Find(name, taskID)`. -/
  workflowTaskV4Find : String → Int → Option WorkflowTask × Option String
  /-- The call `w.getNotificationContent(notify, task)`. -/
  getNotificationContent : NotifyCtl → WorkflowTask → Composed Card
  /-- The call `w.getApproveNotificationContent(notify, task)`; `task` may be a nil pointer. -/
  getApproveNotificationContent : NotifyCtl → Option WorkflowTask → Composed Card

/-- A collaborator call made by a notification entry point. -/
inductive Event (Card : Type) where
  /-- A call of `getNotificationContent` / `getApproveNotificationContent` for a rule. -/
  | compose (notify : NotifyCtl)
  /-- A call of `sendNotification(title, content, notify, larkCard)`. -/
  | send (title content : String) (notify : NotifyCtl) (card : Option Card)
  deriving DecidableEq, Repr

/-- How a Go function of type `func(...) error` ends. -/
inductive Ret where
  | nil
  | err (msg : String)
  | panic
  deriving DecidableEq, Repr

/-- The Go expression `sets.NewString(xs...).Has(x)`: exact string membership. -/
def setHas (xs : List String) (x : String) : Bool := xs.contains x

/-! ## `SendWorkflowTaskNotifications` -/

/-- Lines 87-99 of `workflow_task.go`: the value of the local `statusChanged` after the
previous-task lookup returned `(preTask, err)`. -/
def statusChanged (status : Status) (pre : Option WorkflowTask × Option String) : Bool :=
  let sc0 := false
  let sc1 := if pre.2.isSome then true else sc0
  let sc2 :=
    match pre.1 with
    | some preTask => if status != preTask.Status && status != StatusRunning then true else sc1
    | none => sc1
  if status == StatusCreated then false else sc2

/-- The condition of line 105 under which a rule that is enabled is composed and sent. -/
def statusMatches (notify : NotifyCtl) (status : Status) (changed : Bool) : Bool :=
  setHas notify.NotifyTypes status || (changed && setHas notify.NotifyTypes StatusChanged)

/-- Lines 100-117: the loop over `resp.NotifyCtls`. A send failure is only logged. -/
def notifyLoop {Card : Type} (w : Service Card) (task : WorkflowTask) (changed : Bool) :
    List NotifyCtl → List (Event Card) × Ret
  | [] => ([], Ret.nil)
  | notify :: rest =>
    if !notify.Enabled then notifyLoop w task changed rest
    else if statusMatches notify task.Status changed then
      match w.getNotificationContent notify task with
      | Composed.err e =>
        ([Event.compose notify], Ret.err ("failed to get notification content, err: " ++ e))
      | Composed.panic => ([Event.compose notify], Ret.panic)
      | Composed.ok title content card =>
        let r := notifyLoop w task changed rest
        (Event.compose notify :: Event.send title content notify card :: r.1, r.2)
    else notifyLoop w task changed rest

/-- The function `(w *Service) SendWorkflowTaskNotifications(task)`. -/
def SendWorkflowTaskNotifications {Card : Type} (w : Service Card) (task : WorkflowTask) :
    List (Event Card) × Ret :=
  match w.workflowV4Find task.WorkflowName with
  | (_, some err) => ([], Ret.err ("failed to find workflowv4, err: " ++ err))
  | (none, none) => ([], Ret.panic)
  | (some resp, none) =>
    if resp.NotifyCtls.length == 0 then ([], Ret.nil)
    else if task.TaskID ≤ 0 then ([], Ret.nil)
    else
      let pre := w.workflowTaskV4Find task.WorkflowName (task.TaskID - 1)
      notifyLoop w task (statusChanged task.Status pre) resp.NotifyCtls

/-! ## `SendWorkflowTaskAproveNotifications` -/

/-- Lines 53-70: the loop over `resp.NotifyCtls` on the approval path. -/
def approveLoop {Card : Type} (w : Service Card) (task : Option WorkflowTask) :
    List NotifyCtl → List (Event Card) × Ret
  | [] => ([], Ret.nil)
  | notify :: rest =>
    if !setHas notify.NotifyTypes StatusWaitingApprove then approveLoop w task rest
    else if !notify.Enabled then approveLoop w task rest
    else
      match w.getApproveNotificationContent notify task with
      | Composed.err e =>
        ([Event.compose notify], Ret.err ("failed to get notification content, err: " ++ e))
      | Composed.panic => ([Event.compose notify], Ret.panic)
      | Composed.ok title content card =>
        let r := approveLoop w task rest
        (Event.compose notify :: Event.send title content notify card :: r.1, r.2)

/-- The function `(w *Service) SendWorkflowTaskAproveNotifications(workflowName, taskID)`. -/
def SendWorkflowTaskAproveNotifications {Card : Type} (w : Service Card)
    (workflowName : String) (taskID : Int) : List (Event Card) × Ret :=
  match w.workflowV4Find workflowName with
  | (_, some err) => ([], Ret.err ("failed to find workflowv4, err: " ++ err))
  | (resp, none) =>
    match w.workflowTaskV4Find workflowName taskID with
    | (_, some err) => ([], Ret.err ("failed to find workflowv4 task, err: " ++ err))
    | (task, none) =>
      match resp with
      | none => ([], Ret.panic)
      | some resp => approveLoop w task resp.NotifyCtls

/-! ## The build/freestyle block of `getNotificationContent` -/

/-- A Go `string` of the job block, as its sequence of bytes: `len(s)` is the number of
bytes and `s[0:8]` keeps the first eight bytes. -/
abbrev GoString := List UInt8

/-- The bytes of a string literal of the source: its UTF-8 encoding. -/
def goStr (s : String) : GoString := s.data.flatMap String.utf8EncodeChar

/-- Modelled from the spec: the `types` package is not part of the sources at hand; the
four source-hosting providers, here `types.ProviderGithub`. -/
def ProviderGithub : GoString := goStr "github"

/-- Modelled from the spec: `types.ProviderGitee`. -/
def ProviderGitee : GoString := goStr "gitee"

/-- Modelled from the spec: `types.ProviderGitlab`. -/
def ProviderGitlab : GoString := goStr "gitlab"

/-- Modelled from the spec: `types.ProviderGerrit`. -/
def ProviderGerrit : GoString := goStr "gerrit"

/-- Modelled from the spec: `config.StepGit`, the step type of a source checkout. -/
def StepGit : GoString := goStr "git"

/-- The fields of `types.Repository` read by `getNotificationContent`. -/
structure Repository where
  Source : GoString
  Address : GoString
  RepoOwner : GoString
  RepoName : GoString
  Branch : GoString
  Tag : GoString
  CommitID : GoString
  CommitMessage : GoString
  IsPrimary : Bool
  PRs : List Int
  deriving DecidableEq, Repr

/-- A step of a freestyle job with its `step.StepGitSpec` already decoded by
`models.IToi`; only `Repos` is read. -/
structure StepTask where
  StepType : GoString
  Repos : List Repository
  deriving DecidableEq, Repr

/-- An entry of `jobSpec.Properties.Envs`. -/
structure KeyVal where
  Key : GoString
  Value : GoString
  deriving DecidableEq, Repr

/-- The fields of `models.JobTaskFreestyleSpec` read by `getNotificationContent`. -/
structure JobTaskFreestyleSpec where
  Steps : List StepTask
  Envs : List KeyVal
  deriving DecidableEq, Repr

/-- The fields of `models.JobTask` that the job template reads. -/
structure JobTask where
  Name : GoString
  JobType : GoString
  Status : GoString
  deriving DecidableEq, Repr

/-- The struct `jobTaskNotification` of lines 383-386. -/
structure JobTaskNotification where
  Job : JobTask
  WebHookType : GoString
  deriving DecidableEq, Repr

/-- The verb `%d` of `fmt.Sprintf` on an `int`. -/
def fmtD (n : Int) : GoString := goStr (toString n)

/-- The switch of lines 210-228: the link builder chosen for a provider, `none` when the
variable `prLinkBuilder` stays nil. -/
def prLinkBuilder (source : GoString) :
    Option (GoString → GoString → GoString → Int → GoString) :=
  if source == ProviderGithub then
    some fun baseURL owner repoName prID =>
      baseURL ++ goStr "/" ++ owner ++ goStr "/" ++ repoName ++ goStr "/pull/" ++ fmtD prID
  else if source == ProviderGitee then
    some fun baseURL owner repoName prID =>
      baseURL ++ goStr "/" ++ owner ++ goStr "/" ++ repoName ++ goStr "/pulls/" ++ fmtD prID
  else if source == ProviderGitlab then
    some fun baseURL owner repoName prID =>
      baseURL ++ goStr "/" ++ owner ++ goStr "/" ++ repoName ++ goStr "/merge_requests/" ++
        fmtD prID
  else if source == ProviderGerrit then
    some fun baseURL _ _ prID => baseURL ++ goStr "/" ++ fmtD prID
  else none

/-- The call `sort.Ints(prs)`: ascending order. -/
def sortInts (prs : List Int) : List Int := prs.insertionSort (· ≤ ·)

/-- The call `strings.Split(s, "\n")`; byte 10 is the newline. -/
def splitNewline : GoString → List GoString
  | [] => [[]]
  | c :: cs =>
    if c = 10 then [] :: splitNewline cs
    else
      match splitNewline cs with
      | [] => [[c]]
      | l :: ls => (c :: l) :: ls

/-- The call `strings.Trim(s, "\n")`. -/
def trimNewline (s : GoString) : GoString :=
  ((s.dropWhile (· == 10)).reverse.dropWhile (· == 10)).reverse

/-- The call `strings.Join(elems, sep)`. -/
def stringsJoin : List GoString → GoString → GoString
  | [], _ => []
  | [a], _ => a
  | a :: b :: rest, sep => a ++ sep ++ stringsJoin (b :: rest) sep

/-- The locals of lines 197-199 that the repository loop assigns. -/
structure RepoInfo where
  branchTag : GoString
  commitID : GoString
  gitCommitURL : GoString
  commitMsgs : List GoString
  prInfoList : List GoString
  deriving DecidableEq, Repr

/-- The values of the locals before the loop (lines 197-199). -/
def RepoInfo.init : RepoInfo :=
  { branchTag := [], commitID := [], gitCommitURL := [], commitMsgs := [], prInfoList := [] }

/-- Lines 229-234: the PR links of one repository, `none` when the nil link builder is
called. -/
def prLinks (buildRepo : Repository) : Option (List GoString) :=
  match sortInts buildRepo.PRs, prLinkBuilder buildRepo.Source with
  | [], _ => some []
  | _ :: _, none => none
  | ids, some build =>
    some (ids.map fun id =>
      goStr "[#" ++ fmtD id ++ goStr "](" ++
        build buildRepo.Address buildRepo.RepoOwner buildRepo.RepoName id ++ goStr ")")

/-- Lines 203-237: the body run for a repository that is at index 0 or flagged primary;
`none` is a panic. The commit id is measured and cut in bytes. -/
def repoStep (st : RepoInfo) (buildRepo : Repository) : Option RepoInfo :=
  let branchTag := if buildRepo.Tag != [] then buildRepo.Tag else buildRepo.Branch
  let commitID :=
    if buildRepo.CommitID.length > 8 then buildRepo.CommitID.take 8 else st.commitID
  match prLinks buildRepo with
  | none => none
  | some prInfoList =>
    some
      { branchTag := branchTag
        commitID := commitID
        gitCommitURL :=
          buildRepo.Address ++ goStr "/" ++ buildRepo.RepoOwner ++ goStr "/" ++
            buildRepo.RepoName ++ goStr "/commit/" ++ commitID
        commitMsgs := splitNewline (trimNewline buildRepo.CommitMessage)
        prInfoList := prInfoList }

/-- Lines 201-239: the loop `for idx, buildRepo := range repos`; `none` is a panic. -/
def repoLoop (st : RepoInfo) (idx : Nat) : List Repository → Option RepoInfo
  | [] => some st
  | buildRepo :: rest =>
    if idx == 0 || buildRepo.IsPrimary then
      match repoStep st buildRepo with
      | none => none
      | some st1 => repoLoop st1 (idx + 1) rest
    else repoLoop st (idx + 1) rest

/-- Lines 240-243: the text of `prInfo`. -/
def prInfoOf (prInfoList : List GoString) : GoString :=
  if prInfoList.length != 0 then stringsJoin prInfoList (goStr " ") ++ goStr " " else []

/-- Lines 189-196: the repositories of the job, those of its last git step. -/
def reposOf (steps : List StepTask) : List Repository :=
  steps.foldl (fun repos stepTask => if stepTask.StepType == StepGit then stepTask.Repos else repos) []

/-- Lines 244-249: the value of the last `IMAGE` entry, empty when there is none. -/
def imageOf (envs : List KeyVal) : GoString :=
  envs.foldl (fun image env => if env.Key == goStr "IMAGE" then env.Value else image) []

/-- The template prefix that opens every detail line. -/
def dingPrefix : GoString :=
  goStr "\x7b\x7bif eq .WebHookType \"dingding\"\x7d\x7d##### \x7b\x7bend\x7d\x7d"

/-- Line 182: the header of a job block, as template text. -/
def jobHeader : GoString :=
  goStr ("\n\n\x7b\x7bif eq .WebHookType \"dingding\"\x7d\x7d---\n\n##### \x7b\x7bend\x7d\x7d**" ++
    "\x7b\x7bjobType .Job.JobType \x7d\x7d**: \x7b\x7b.Job.Name\x7d\x7d    **??????**: " ++
    "\x7b\x7btaskStatus .Job.Status \x7d\x7d \n")

/-- Lines 253-260: the commit message, on the label's line when it is a single line and
one line each below the label otherwise. -/
def commitMsgLines (commitMsgs : List GoString) : GoString :=
  match commitMsgs with
  | [m] => m ++ goStr " \n"
  | ms => goStr "\n" ++ (ms.map fun m => m ++ goStr " \n").flatten

/-- Lines 250-261: the code-info line and the commit message, present only when
`commitID` is not empty. -/
def commitLines (st : RepoInfo) : GoString :=
  if st.commitID.length > 0 then
    dingPrefix ++ goStr "**????????????**???" ++ st.branchTag ++ goStr " " ++
      prInfoOf st.prInfoList ++ goStr "[" ++ st.commitID ++ goStr "](" ++ st.gitCommitURL ++
      goStr ") \n" ++ dingPrefix ++ goStr "**????????????**???" ++ commitMsgLines st.commitMsgs
  else []

/-- Lines 262-264: the image line. -/
def imageLine (image : GoString) : GoString :=
  if image != [] then dingPrefix ++ goStr "**????????????**???" ++ image ++ goStr " \n" else []

/-- Lines 182-264 for a build or freestyle job: the template text `jobTplcontent` that is
handed to `getJobTaskTplExec`; `none` is the panic of a nil link-builder call. -/
def buildJobTpl (jobSpec : JobTaskFreestyleSpec) : Option GoString :=
  match repoLoop RepoInfo.init 0 (reposOf jobSpec.Steps) with
  | none => none
  | some st => some (jobHeader ++ commitLines st ++ imageLine (imageOf jobSpec.Envs))

/-- The two calls of Go's `text/template` made by `getJobTaskTplExec`, a parameter of the
model: `Parse` on a template that has the function map of lines 389-454 installed, and
`Execute` into a fresh buffer. Each yields its result or its error. -/
structure TemplateLib (Tmpl : Type) where
  /-- The call `template.New("notify").Funcs(...).Parse(tplcontent)`. -/
  Parse : GoString → Except GoString Tmpl
  /-- The call `tmpl.Execute(buffer, args)`, with the buffer's content as result. -/
  Execute : Tmpl → JobTaskNotification → Except GoString GoString

/-- The outcome of rendering one job block: `(jobContent, nil)`, `("", err)`, or a
panic. -/
inductive TplResult where
  | ok (content : GoString)
  | err (e : GoString)
  | panic
  deriving DecidableEq, Repr

/-- The function `getJobTaskTplExec` (lines 388-463): `template.Must` panics when the text
does not parse, and an `Execute` error is wrapped and returned. -/
def getJobTaskTplExec {Tmpl : Type} (lib : TemplateLib Tmpl) (tplcontent : GoString)
    (args : JobTaskNotification) : TplResult :=
  match lib.Parse tplcontent with
  | Except.error _ => TplResult.panic
  | Except.ok tmpl =>
    match lib.Execute tmpl args with
    | Except.error e => TplResult.err (goStr "getTplExec Execute err:" ++ e)
    | Except.ok content => TplResult.ok content

/-- Lines 182-283 for a build or freestyle job whose spec `models.IToi` decoded to
`jobSpec`: the template text is assembled and rendered by `getJobTaskTplExec`. -/
def buildJobContent {Tmpl : Type} (lib : TemplateLib Tmpl) (job : JobTask)
    (webHookType : GoString) (jobSpec : JobTaskFreestyleSpec) : TplResult :=
  match buildJobTpl jobSpec with
  | none => TplResult.panic
  | some jobTplcontent =>
    getJobTaskTplExec lib jobTplcontent { Job := job, WebHookType := webHookType }

end Instantmessage

/-! ## `pkg/util/helm.go` -/

namespace Util

/-- The scan of `strings.ReplaceAll` for a non-empty `old`: matches are taken left to
right and do not overlap; `skip` counts the characters of a match still to be dropped. -/
def replaceScan (old new : List Char) : Nat → List Char → List Char
  | _, [] => []
  | skip + 1, _ :: cs => replaceScan old new skip cs
  | 0, c :: cs =>
    if old.isPrefixOf (c :: cs) then new ++ replaceScan old new (old.length - 1) cs
    else c :: replaceScan old new 0 cs

/-- The call `strings.ReplaceAll(s, old, new)`. An empty `old` matches before every
character and at the end. -/
def ReplaceAll (s old new : String) : String :=
  if old.data.isEmpty then String.mk (new.data ++ (s.data.map fun c => c :: new.data).flatten)
  else String.mk (replaceScan old.data new.data 0 s.data)

/-- The function `GeneReleaseName` of `helm.go`: every call takes `namingRule`, not the
running `ret`, as its input. -/
def GeneReleaseName (namingRule projectName namespace_ envName service : String) : String :=
  let ret := ReplaceAll namingRule "$Product$" projectName
  let ret := ReplaceAll namingRule "$Namespace$" namespace_
  let ret := ReplaceAll namingRule "$EnvName" envName
  let ret := ReplaceAll namingRule "$Service$" service
  ret

end Util

namespace Instantmessage

/-! ## Sample inputs -/

/-- A rule subscribed only to the status-changed pseudo-status. -/
def ruleChangedOnly : NotifyCtl :=
  { Enabled := true, WebHookType := "dingding", NotifyTypes := [StatusChanged] }

/-- A rule subscribed to `passed`. -/
def rulePassed : NotifyCtl :=
  { Enabled := true, WebHookType := "wechat", NotifyTypes := [StatusPassed] }

/-- A disabled rule subscribed to everything used below. -/
def ruleDisabled : NotifyCtl :=
  { Enabled := false, WebHookType := "feishu",
    NotifyTypes := [StatusPassed, StatusChanged, StatusWaitingApprove, StatusCreated] }

/-- A rule subscribed to the waiting-for-approval pseudo-status. -/
def ruleApprove : NotifyCtl :=
  { Enabled := true, WebHookType := "feishu", NotifyTypes := [StatusWaitingApprove] }

/-- A workflow carrying the four sample rules. -/
def sampleWorkflow : WorkflowV4 :=
  { Name := "wf", NotifyCtls := [ruleChangedOnly, ruleDisabled, rulePassed, ruleApprove] }

/-- A task of `wf` with the given id and status. -/
def sampleTask (taskID : Int) (status : Status) : WorkflowTask :=
  { WorkflowName := "wf", WorkflowDisplayName := "Workflow", TaskID := taskID,
    ProjectName := "proj", TaskCreator := "dev", StartTime := 1700000000, Status := status }

/-- A service that finds `wf`, answers the task lookup with `pre`, and composes the
fixed text `("t", "c")` without a card. -/
def sampleService (pre : Option WorkflowTask × Option String) : Service Unit :=
  { workflowV4Find := fun _ => (some sampleWorkflow, none)
    workflowTaskV4Find := fun _ _ => pre
    getNotificationContent := fun _ _ => Composed.ok "t" "c" none
    getApproveNotificationContent := fun _ _ => Composed.ok "t" "c" none }

/-- A service whose workflow lookup fails. -/
def failingService : Service Unit :=
  { workflowV4Find := fun _ => (none, some "mongo: no documents in result")
    workflowTaskV4Find := fun _ _ => (none, some "mongo: no documents in result")
    getNotificationContent := fun _ _ => Composed.ok "t" "c" none
    getApproveNotificationContent := fun _ _ => Composed.ok "t" "c" none }

/-! ## Reference definitions for the primary repository and its PR links -/

/-- The primary repository in the words of the specification: the repository flagged
primary, or the first one when none is flagged. -/
def primaryRepository (repos : List Repository) : Option Repository :=
  match repos.find? (·.IsPrimary) with
  | some repo => some repo
  | none => repos.head?

/-- The URL of a pull/merge request in the words of the specification, one shape per
provider. -/
def prURL (repo : Repository) (id : Int) : GoString :=
  if repo.Source = goStr "github" then
    repo.Address ++ goStr "/" ++ repo.RepoOwner ++ goStr "/" ++ repo.RepoName ++
      goStr "/pull/" ++ goStr (toString id)
  else if repo.Source = goStr "gitee" then
    repo.Address ++ goStr "/" ++ repo.RepoOwner ++ goStr "/" ++ repo.RepoName ++
      goStr "/pulls/" ++ goStr (toString id)
  else if repo.Source = goStr "gitlab" then
    repo.Address ++ goStr "/" ++ repo.RepoOwner ++ goStr "/" ++ repo.RepoName ++
      goStr "/merge_requests/" ++ goStr (toString id)
  else repo.Address ++ goStr "/" ++ goStr (toString id)

/-- The entry of one pull/merge request in the words of the specification. -/
def prEntry (repo : Repository) (id : Int) : GoString :=
  goStr "[#" ++ goStr (toString id) ++ goStr "](" ++ prURL repo id ++ goStr ")"

/-- The provider is one of the four source-hosting providers. -/
def knownProvider (source : GoString) : Prop :=
  source = goStr "github" ∨ source = goStr "gitee" ∨ source = goStr "gitlab" ∨
    source = goStr "gerrit"

instance (source : GoString) : Decidable (knownProvider source) := by
  unfold knownProvider; infer_instance

/-! ## Sample repositories -/

/-- A github repository, not flagged primary. -/
def repoA : Repository :=
  { Source := goStr "github", Address := goStr "https://github.com",
    RepoOwner := goStr "koderover", RepoName := goStr "zadig", Branch := goStr "main",
    Tag := [], CommitID := goStr "0123456789abcdef0123456789abcdef01234567",
    CommitMessage := goStr "first line\nsecond line\n", IsPrimary := false, PRs := [7] }

/-- A gitlab repository flagged primary, with PRs `[5, 3]`. -/
def repoB : Repository :=
  { Source := goStr "gitlab", Address := goStr "https://gitlab.example.com",
    RepoOwner := goStr "team", RepoName := goStr "svc", Branch := goStr "dev",
    Tag := goStr "v1.2.0", CommitID := goStr "fedcba9876543210fedcba9876543210fedcba98",
    CommitMessage := goStr "fix build", IsPrimary := true, PRs := [5, 3] }

/-- A repository whose commit id has exactly eight characters. -/
def repoShort : Repository :=
  { Source := goStr "github", Address := goStr "https://github.com",
    RepoOwner := goStr "koderover", RepoName := goStr "zadig", Branch := goStr "main",
    Tag := [], CommitID := goStr "0123abcd", CommitMessage := goStr "fix",
    IsPrimary := true, PRs := [] }

/-- A build job that checks out `repoA` and `repoB` and builds an image. -/
def jobAB : JobTaskFreestyleSpec :=
  { Steps := [{ StepType := goStr "shell", Repos := [] },
      { StepType := goStr "git", Repos := [repoA, repoB] }],
    Envs := [{ Key := goStr "IMAGE", Value := goStr "registry.example.com/svc:1" }] }

/-- A build job that checks out `repoShort` only. -/
def jobShort : JobTaskFreestyleSpec :=
  { Steps := [{ StepType := goStr "git", Repos := [repoShort] }], Envs := [] }

/-- The repository `repoA` with a seven-character commit id. -/
def repoA7 : Repository := { repoA with CommitID := goStr "0123456" }

/-- The repository `repoB` with a seven-character commit id. -/
def repoB7 : Repository := { repoB with CommitID := goStr "fedcba9" }

/-- A build job that checks out `repoA7` and `repoB7`. -/
def jobSeven : JobTaskFreestyleSpec :=
  { Steps := [{ StepType := goStr "git", Repos := [repoA7, repoB7] }], Envs := [] }

/-- A repository of a provider outside the four known ones, with one PR. -/
def repoCodehub : Repository :=
  { Source := goStr "codehub", Address := goStr "https://codehub.example.com",
    RepoOwner := goStr "team", RepoName := goStr "lib", Branch := goStr "main", Tag := [],
    CommitID := goStr "89abcdef0123456789abcdef0123456789abcdef",
    CommitMessage := goStr "update", IsPrimary := false, PRs := [12] }

/-- A build job whose first repository is `repoCodehub`. -/
def jobCodehub : JobTaskFreestyleSpec :=
  { Steps := [{ StepType := goStr "git", Repos := [repoCodehub, repoB] }], Envs := [] }

/-- The repository `repoCodehub` without its PR. -/
def repoCodehubNoPR : Repository := { repoCodehub with PRs := [] }

/-- A build job whose only repository is `repoCodehubNoPR`. -/
def jobCodehubNoPR : JobTaskFreestyleSpec :=
  { Steps := [{ StepType := goStr "git", Repos := [repoCodehubNoPR] }], Envs := [] }

/-- A build job item as the template sees it. -/
def sampleJob : JobTask :=
  { Name := goStr "build-svc", JobType := goStr "zadig-build", Status := goStr "passed" }

/-- A stand-in for the template library that accepts every text and writes it out
unchanged. -/
def echoLib : TemplateLib GoString :=
  { Parse := fun text => Except.ok text, Execute := fun tmpl _ => Except.ok tmpl }

/-- A stand-in for the template library whose `Parse` rejects every text. -/
def rejectLib : TemplateLib Unit :=
  { Parse := fun _ => Except.error (goStr "template: notify:1: unclosed action"),
    Execute := fun _ _ => Except.ok [] }

/-! ## Lemmas on the rule loops -/

theorem setHas_iff (xs : List String) (x : String) : setHas xs x = true ↔ x ∈ xs := by
  simp [setHas]

theorem statusMatches_iff (notify : NotifyCtl) (status : Status) (changed : Bool) :
    statusMatches notify status changed = true ↔
      (status ∈ notify.NotifyTypes ∨ (changed = true ∧ StatusChanged ∈ notify.NotifyTypes)) := by
  simp [statusMatches, setHas]

/-- When every composition succeeds the loop visits the rules in order and emits one
compose and one send for exactly the enabled matching rules. -/
theorem notifyLoop_trace {Card : Type} (w : Service Card) (task : WorkflowTask)
    (changed : Bool) (title content : NotifyCtl → String) (card : NotifyCtl → Option Card)
    (rules : List NotifyCtl)
    (hc : ∀ n ∈ rules, w.getNotificationContent n task = Composed.ok (title n) (content n) (card n)) :
    notifyLoop w task changed rules =
      (rules.flatMap fun n =>
        if n.Enabled = true ∧ statusMatches n task.Status changed = true then
          [Event.compose n, Event.send (title n) (content n) n (card n)]
        else [], Ret.nil) := by
  induction rules with
  | nil => rfl
  | cons n rest ih =>
    have hrest := ih (fun m hm => hc m (List.mem_cons_of_mem _ hm))
    have hn := hc n (List.mem_cons_self _ _)
    unfold notifyLoop
    cases hE : n.Enabled <;> cases hM : statusMatches n task.Status changed <;>
      simp [hE, hM, hn, hrest]

/-- Every event of the loop concerns an enabled rule of the list that matches. -/
theorem notifyLoop_rule {Card : Type} (w : Service Card) (task : WorkflowTask)
    (changed : Bool) (rules : List NotifyCtl) (e : Event Card)
    (he : e ∈ (notifyLoop w task changed rules).1) :
    ∃ n ∈ rules, n.Enabled = true ∧ statusMatches n task.Status changed = true ∧
      (e = Event.compose n ∨ ∃ t c k, e = Event.send t c n k) := by
  induction rules with
  | nil => simp [notifyLoop] at he
  | cons n rest ih =>
    unfold notifyLoop at he
    cases hE : n.Enabled <;> cases hM : statusMatches n task.Status changed <;>
      simp only [hE, hM, Bool.not_true, Bool.not_false, if_true, if_false, Bool.false_eq_true] at he
    · obtain ⟨m, hm, h⟩ := ih he; exact ⟨m, List.mem_cons_of_mem _ hm, h⟩
    · obtain ⟨m, hm, h⟩ := ih he; exact ⟨m, List.mem_cons_of_mem _ hm, h⟩
    · obtain ⟨m, hm, h⟩ := ih he; exact ⟨m, List.mem_cons_of_mem _ hm, h⟩
    · cases hG : w.getNotificationContent n task with
      | err x =>
        simp only [hG, List.mem_singleton] at he
        exact ⟨n, List.mem_cons_self _ _, hE, hM, Or.inl he⟩
      | panic =>
        simp only [hG, List.mem_singleton] at he
        exact ⟨n, List.mem_cons_self _ _, hE, hM, Or.inl he⟩
      | ok t c k =>
        simp only [hG, List.mem_cons] at he
        rcases he with he | he | he
        · exact ⟨n, List.mem_cons_self _ _, hE, hM, Or.inl he⟩
        · exact ⟨n, List.mem_cons_self _ _, hE, hM, Or.inr ⟨t, c, k, he⟩⟩
        · obtain ⟨m, hm, h⟩ := ih he; exact ⟨m, List.mem_cons_of_mem _ hm, h⟩

end Instantmessage

namespace Instantmessage

/-! ## Status classification -/

theorem statusChanged_created (pre : Option WorkflowTask × Option String) :
    statusChanged StatusCreated pre = false := by
  simp [statusChanged]

theorem statusChanged_found (status : Status) (preTask : WorkflowTask) :
    statusChanged status (some preTask, none) = true ↔
      status ≠ preTask.Status ∧ status ≠ StatusRunning ∧ status ≠ StatusCreated := by
  simp only [statusChanged, Option.isSome_none, Bool.false_eq_true, if_false]
  by_cases h1 : status = StatusCreated
  · simp [h1]
  · by_cases h2 : status = preTask.Status
    · simp [h1, h2]
    · by_cases h3 : status = StatusRunning
      · simp [h1, h2, h3]
      · simp [h1, h2, h3]

/-- C1 (amended): for a task with `TaskID > 0` and status passed whose preceding task is
found with status running, `statusChanged` is true; with every composition succeeding,
exactly the enabled rules whose `NotifyTypes` contains `passed` or the status-changed
pseudo-status are composed and sent, once each and in list order, and nil is returned. -/
theorem scenarioA_passed_after_running {Card : Type} (w : Service Card) (task : WorkflowTask)
    (resp : WorkflowV4) (preTask : WorkflowTask)
    (title content : NotifyCtl → String) (card : NotifyCtl → Option Card)
    (hwf : w.workflowV4Find task.WorkflowName = (some resp, none))
    (hid : 0 < task.TaskID)
    (hst : task.Status = StatusPassed)
    (hpre : w.workflowTaskV4Find task.WorkflowName (task.TaskID - 1) = (some preTask, none))
    (hrun : preTask.Status = StatusRunning)
    (hc : ∀ n ∈ resp.NotifyCtls,
      w.getNotificationContent n task = Composed.ok (title n) (content n) (card n)) :
    statusChanged task.Status (w.workflowTaskV4Find task.WorkflowName (task.TaskID - 1)) = true ∧
    SendWorkflowTaskNotifications w task =
      (resp.NotifyCtls.flatMap fun n =>
        if n.Enabled = true ∧ (StatusPassed ∈ n.NotifyTypes ∨ StatusChanged ∈ n.NotifyTypes) then
          [Event.compose n, Event.send (title n) (content n) n (card n)]
        else [], Ret.nil) := by
  have hsc : statusChanged task.Status
      (w.workflowTaskV4Find task.WorkflowName (task.TaskID - 1)) = true := by
    rw [hpre, statusChanged_found, hst, hrun]
    decide
  refine ⟨hsc, ?_⟩
  unfold SendWorkflowTaskNotifications
  rw [hwf]
  simp only [hsc]
  have hid2 : ¬ task.TaskID ≤ 0 := not_le.mpr hid
  rw [notifyLoop_trace w task true title content card resp.NotifyCtls hc]
  cases hr : resp.NotifyCtls with
  | nil => simp
  | cons r rs =>
    simp only [List.length_cons, hid2, if_false]
    have : (rs.length + 1 == 0) = false := by simp
    simp only [this, Bool.false_eq_true, if_false, statusMatches_iff, hst, true_and]

theorem scenarioA_witness :
    statusChanged (sampleTask 2 StatusPassed).Status
      ((sampleService (some (sampleTask 1 StatusRunning), none)).workflowTaskV4Find
        (sampleTask 2 StatusPassed).WorkflowName ((sampleTask 2 StatusPassed).TaskID - 1)) = true ∧
    SendWorkflowTaskNotifications (sampleService (some (sampleTask 1 StatusRunning), none))
        (sampleTask 2 StatusPassed) =
      (sampleWorkflow.NotifyCtls.flatMap fun n =>
        if n.Enabled = true ∧ (StatusPassed ∈ n.NotifyTypes ∨ StatusChanged ∈ n.NotifyTypes) then
          [Event.compose n, Event.send "t" "c" n none]
        else [], Ret.nil) :=
  scenarioA_passed_after_running (sampleService (some (sampleTask 1 StatusRunning), none))
    (sampleTask 2 StatusPassed) sampleWorkflow (sampleTask 1 StatusRunning)
    (fun _ => "t") (fun _ => "c") (fun _ => none) rfl (by decide) rfl rfl rfl
    (fun _ _ => rfl)

/-- C1 (as stated, refuted): with the task passed and the preceding task found running,
`statusChanged` is true and the rule subscribed only to the status-changed pseudo-status
is composed and sent. -/
theorem scenarioA_changed_only_rule_is_sent :
    statusChanged StatusPassed (some (sampleTask 1 StatusRunning), none) = true ∧
    ruleChangedOnly.NotifyTypes = [StatusChanged] ∧
    Event.compose ruleChangedOnly ∈
      (SendWorkflowTaskNotifications (sampleService (some (sampleTask 1 StatusRunning), none))
        (sampleTask 2 StatusPassed)).1 ∧
    Event.send "t" "c" ruleChangedOnly none ∈
      (SendWorkflowTaskNotifications (sampleService (some (sampleTask 1 StatusRunning), none))
        (sampleTask 2 StatusPassed)).1 := by
  decide

end Instantmessage

namespace Instantmessage

/-- The entry point runs the rule loop with the classified `statusChanged` once the
workflow is found and the task id is positive. -/
theorem send_eq_notifyLoop {Card : Type} (w : Service Card) (task : WorkflowTask)
    (resp : WorkflowV4)
    (hwf : w.workflowV4Find task.WorkflowName = (some resp, none))
    (hid : 0 < task.TaskID) :
    SendWorkflowTaskNotifications w task =
      notifyLoop w task
        (statusChanged task.Status (w.workflowTaskV4Find task.WorkflowName (task.TaskID - 1)))
        resp.NotifyCtls := by
  unfold SendWorkflowTaskNotifications
  rw [hwf]
  have hid2 : ¬ task.TaskID ≤ 0 := not_le.mpr hid
  by_cases hr : resp.NotifyCtls = []
  · simp [hr, notifyLoop]
  · simp [hr, hid2]

/-- C2 (amended): when the previous-task lookup fails, `statusChanged` is true for every
current status other than created, whatever pointer comes with the error, and the rule
loop of `SendWorkflowTaskNotifications` runs with `statusChanged = true`. -/
theorem lookup_failure_statusChanged {Card : Type} (w : Service Card) (task : WorkflowTask)
    (resp : WorkflowV4) (preTask : Option WorkflowTask) (err : String)
    (hwf : w.workflowV4Find task.WorkflowName = (some resp, none))
    (hid : 0 < task.TaskID)
    (hpre : w.workflowTaskV4Find task.WorkflowName (task.TaskID - 1) = (preTask, some err))
    (hst : task.Status ≠ StatusCreated) :
    statusChanged task.Status (w.workflowTaskV4Find task.WorkflowName (task.TaskID - 1)) = true ∧
    SendWorkflowTaskNotifications w task = notifyLoop w task true resp.NotifyCtls := by
  have hsc : statusChanged task.Status
      (w.workflowTaskV4Find task.WorkflowName (task.TaskID - 1)) = true := by
    rw [hpre]
    cases preTask <;> simp [statusChanged, hst]
  refine ⟨hsc, ?_⟩
  rw [send_eq_notifyLoop w task resp hwf hid, hsc]

theorem lookup_failure_witness :
    statusChanged (sampleTask 1 StatusFailed).Status
      ((sampleService (none, some "not found")).workflowTaskV4Find
        (sampleTask 1 StatusFailed).WorkflowName ((sampleTask 1 StatusFailed).TaskID - 1)) = true ∧
    SendWorkflowTaskNotifications (sampleService (none, some "not found"))
        (sampleTask 1 StatusFailed) =
      notifyLoop (sampleService (none, some "not found")) (sampleTask 1 StatusFailed) true
        sampleWorkflow.NotifyCtls :=
  lookup_failure_statusChanged (sampleService (none, some "not found"))
    (sampleTask 1 StatusFailed) sampleWorkflow none "not found" rfl (by decide) rfl (by decide)

/-- C2 (as stated, refuted): a created task whose previous-task lookup fails has
`statusChanged = false`, and the rule subscribed only to the status-changed pseudo-status
is not composed. -/
theorem lookup_failure_created_not_changed :
    statusChanged (sampleTask 1 StatusCreated).Status
      ((sampleService (none, some "not found")).workflowTaskV4Find "wf" 0) = false ∧
    Event.compose ruleChangedOnly ∉
      (SendWorkflowTaskNotifications (sampleService (none, some "not found"))
        (sampleTask 1 StatusCreated)).1 := by
  decide

/-- C3 (amended): for every task with `TaskID ≤ 0` nothing is composed or sent, whatever
the lookups return; the function returns nil whenever the workflow lookup succeeds, and
returns the wrapped lookup error when the workflow lookup fails. -/
theorem nonpositive_taskID_short_circuit {Card : Type} (w : Service Card) (task : WorkflowTask)
    (hid : task.TaskID ≤ 0) :
    (SendWorkflowTaskNotifications w task).1 = [] ∧
    (∀ resp, w.workflowV4Find task.WorkflowName = (some resp, none) →
      (SendWorkflowTaskNotifications w task).2 = Ret.nil) ∧
    (∀ resp err, w.workflowV4Find task.WorkflowName = (resp, some err) →
      (SendWorkflowTaskNotifications w task).2 =
        Ret.err ("failed to find workflowv4, err: " ++ err)) := by
  unfold SendWorkflowTaskNotifications
  refine ⟨?_, ?_, ?_⟩
  · rcases hf : w.workflowV4Find task.WorkflowName with ⟨_ | resp, _ | err⟩ <;> simp [hid]
  · intro resp hf
    rw [hf]
    simp only [hid, if_true]
    split <;> rfl
  · intro resp err hf
    rw [hf]
    cases resp <;> rfl

theorem nonpositive_taskID_witness :
    (SendWorkflowTaskNotifications (sampleService (none, none)) (sampleTask 0 StatusPassed)).1 = [] ∧
    (∀ resp, (sampleService (none, none)).workflowV4Find (sampleTask 0 StatusPassed).WorkflowName
        = (some resp, none) →
      (SendWorkflowTaskNotifications (sampleService (none, none)) (sampleTask 0 StatusPassed)).2
        = Ret.nil) ∧
    (∀ resp err, (sampleService (none, none)).workflowV4Find
        (sampleTask 0 StatusPassed).WorkflowName = (resp, some err) →
      (SendWorkflowTaskNotifications (sampleService (none, none)) (sampleTask 0 StatusPassed)).2 =
        Ret.err ("failed to find workflowv4, err: " ++ err)) :=
  nonpositive_taskID_short_circuit (sampleService (none, none)) (sampleTask 0 StatusPassed)
    (by decide)

/-- C3 (as stated, refuted): with `TaskID = 0` and a failing workflow lookup the function
returns an error, not nil. -/
theorem nonpositive_taskID_lookup_error :
    (sampleTask 0 StatusPassed).TaskID ≤ 0 ∧
    (SendWorkflowTaskNotifications failingService (sampleTask 0 StatusPassed)).2 =
      Ret.err "failed to find workflowv4, err: mongo: no documents in result" ∧
    (SendWorkflowTaskNotifications failingService (sampleTask 0 StatusPassed)).2 ≠ Ret.nil := by
  decide

end Instantmessage

namespace Instantmessage

/-- Every event of `SendWorkflowTaskNotifications` concerns an enabled rule that matches
the current status, or the status-changed pseudo-status with `statusChanged` true. -/
theorem send_rule {Card : Type} (w : Service Card) (task : WorkflowTask) (e : Event Card)
    (he : e ∈ (SendWorkflowTaskNotifications w task).1) :
    ∃ n, n.Enabled = true ∧
      statusMatches n task.Status
        (statusChanged task.Status
          (w.workflowTaskV4Find task.WorkflowName (task.TaskID - 1))) = true ∧
      (e = Event.compose n ∨ ∃ t c k, e = Event.send t c n k) := by
  unfold SendWorkflowTaskNotifications at he
  rcases hf : w.workflowV4Find task.WorkflowName with ⟨_ | resp, _ | err⟩ <;>
    rw [hf] at he <;> simp only [List.not_mem_nil] at he
  by_cases hr : (resp.NotifyCtls.length == 0) = true
  · simp [hr] at he
  · by_cases hid : task.TaskID ≤ 0
    · simp [hr, hid] at he
    · simp only [hr, hid, if_false, Bool.false_eq_true] at he
      obtain ⟨n, _, h⟩ := notifyLoop_rule w task _ resp.NotifyCtls e he
      exact ⟨n, h⟩

/-- C4: for a task whose status is created, `statusChanged` is false for every outcome of
the previous-task lookup, and a rule subscribed only to the status-changed pseudo-status
is neither composed nor sent, for every behaviour of the collaborators. -/
theorem created_never_changed {Card : Type} (w : Service Card) (task : WorkflowTask)
    (pre : Option WorkflowTask × Option String) (notify : NotifyCtl)
    (hst : task.Status = StatusCreated)
    (honly : ∀ x ∈ notify.NotifyTypes, x = StatusChanged) :
    statusChanged task.Status pre = false ∧
    Event.compose notify ∉ (SendWorkflowTaskNotifications w task).1 ∧
    ∀ t c k, Event.send t c notify k ∉ (SendWorkflowTaskNotifications w task).1 := by
  have hno : ∀ n : NotifyCtl, n = notify →
      statusMatches n task.Status
        (statusChanged task.Status
          (w.workflowTaskV4Find task.WorkflowName (task.TaskID - 1))) = true → False := by
    intro n hn hm
    subst hn
    rw [hst, statusChanged_created, statusMatches_iff] at hm
    rcases hm with hm | ⟨hm, _⟩
    · exact absurd (honly _ hm) (by decide)
    · exact absurd hm (by decide)
  refine ⟨by rw [hst]; exact statusChanged_created pre, ?_, ?_⟩
  · intro he
    obtain ⟨n, _, hm, h | ⟨t, c, k, h⟩⟩ := send_rule w task _ he
    · exact hno n (by injection h with h; exact h.symm) hm
    · cases h
  · intro t c k he
    obtain ⟨n, _, hm, h | ⟨t2, c2, k2, h⟩⟩ := send_rule w task _ he
    · cases h
    · exact hno n (by injection h with _ _ h _; exact h.symm) hm

theorem created_never_changed_witness :
    statusChanged (sampleTask 3 StatusCreated).Status (none, some "not found") = false ∧
    Event.compose ruleChangedOnly ∉
      (SendWorkflowTaskNotifications (sampleService (none, some "not found"))
        (sampleTask 3 StatusCreated)).1 ∧
    ∀ t c k, Event.send t c ruleChangedOnly k ∉
      (SendWorkflowTaskNotifications (sampleService (none, some "not found"))
        (sampleTask 3 StatusCreated)).1 :=
  created_never_changed (sampleService (none, some "not found")) (sampleTask 3 StatusCreated)
    (none, some "not found") ruleChangedOnly rfl (by decide)

/-- C5: when the previous-task lookup succeeds and returns a task, `statusChanged` is true
exactly when the current status differs from the previous one, is not running and is not
created; equal statuses and a running current status give false. -/
theorem statusChanged_found_iff (status : Status) (preTask : WorkflowTask) :
    (statusChanged status (some preTask, none) = true ↔
      status ≠ preTask.Status ∧ status ≠ StatusRunning ∧ status ≠ StatusCreated) ∧
    statusChanged preTask.Status (some preTask, none) = false ∧
    statusChanged StatusRunning (some preTask, none) = false := by
  refine ⟨statusChanged_found status preTask, ?_, ?_⟩
  · rw [← Bool.not_eq_true, statusChanged_found]
    simp
  · rw [← Bool.not_eq_true, statusChanged_found]
    simp

/-- C6: with the workflow found, `TaskID > 0` and every composition succeeding, the trace
of `SendWorkflowTaskNotifications` lists, in rule order, one compose and one send for
exactly the rules that are enabled and whose `NotifyTypes` contains the current status, or
contains the status-changed pseudo-status while `statusChanged` is true; the call returns
nil, and a disabled rule is neither composed nor sent. -/
theorem channel_filter {Card : Type} (w : Service Card) (task : WorkflowTask)
    (resp : WorkflowV4) (title content : NotifyCtl → String) (card : NotifyCtl → Option Card)
    (hwf : w.workflowV4Find task.WorkflowName = (some resp, none))
    (hid : 0 < task.TaskID)
    (hc : ∀ n ∈ resp.NotifyCtls,
      w.getNotificationContent n task = Composed.ok (title n) (content n) (card n)) :
    SendWorkflowTaskNotifications w task =
      (resp.NotifyCtls.flatMap fun n =>
        if n.Enabled = true ∧
            (task.Status ∈ n.NotifyTypes ∨
              (statusChanged task.Status
                  (w.workflowTaskV4Find task.WorkflowName (task.TaskID - 1)) = true ∧
                StatusChanged ∈ n.NotifyTypes)) then
          [Event.compose n, Event.send (title n) (content n) n (card n)]
        else [], Ret.nil) ∧
    ∀ n, n.Enabled = false →
      Event.compose n ∉ (SendWorkflowTaskNotifications w task).1 ∧
      ∀ t c k, Event.send t c n k ∉ (SendWorkflowTaskNotifications w task).1 := by
  constructor
  · rw [send_eq_notifyLoop w task resp hwf hid,
      notifyLoop_trace w task _ title content card resp.NotifyCtls hc]
    simp only [statusMatches_iff]
  · intro n hn
    constructor
    · intro he
      obtain ⟨m, hE, _, h | ⟨t, c, k, h⟩⟩ := send_rule w task _ he
      · injection h with h
        rw [h, hE] at hn
        cases hn
      · cases h
    · intro t c k he
      obtain ⟨m, hE, _, h | ⟨t2, c2, k2, h⟩⟩ := send_rule w task _ he
      · cases h
      · injection h with _ _ h _
        rw [h, hE] at hn
        cases hn

theorem channel_filter_witness :
    SendWorkflowTaskNotifications (sampleService (some (sampleTask 4 StatusPassed), none))
        (sampleTask 5 StatusPassed) =
      (sampleWorkflow.NotifyCtls.flatMap fun n =>
        if n.Enabled = true ∧
            ((sampleTask 5 StatusPassed).Status ∈ n.NotifyTypes ∨
              (statusChanged (sampleTask 5 StatusPassed).Status
                  ((sampleService (some (sampleTask 4 StatusPassed), none)).workflowTaskV4Find
                    (sampleTask 5 StatusPassed).WorkflowName
                    ((sampleTask 5 StatusPassed).TaskID - 1)) = true ∧
                StatusChanged ∈ n.NotifyTypes)) then
          [Event.compose n, Event.send "t" "c" n none]
        else [], Ret.nil) ∧
    ∀ n, n.Enabled = false →
      Event.compose n ∉
        (SendWorkflowTaskNotifications (sampleService (some (sampleTask 4 StatusPassed), none))
          (sampleTask 5 StatusPassed)).1 ∧
      ∀ t c k, Event.send t c n k ∉
        (SendWorkflowTaskNotifications (sampleService (some (sampleTask 4 StatusPassed), none))
          (sampleTask 5 StatusPassed)).1 :=
  channel_filter (sampleService (some (sampleTask 4 StatusPassed), none))
    (sampleTask 5 StatusPassed) sampleWorkflow (fun _ => "t") (fun _ => "c") (fun _ => none)
    rfl (by decide) (fun _ _ => rfl)

end Instantmessage

namespace Instantmessage

/-! ## The approval path -/

/-- When every composition succeeds the approval loop emits one compose and one send, in
order, for exactly the enabled rules subscribed to the waiting-for-approval
pseudo-status. -/
theorem approveLoop_trace {Card : Type} (w : Service Card) (task : Option WorkflowTask)
    (title content : NotifyCtl → String) (card : NotifyCtl → Option Card)
    (rules : List NotifyCtl)
    (hc : ∀ n ∈ rules,
      w.getApproveNotificationContent n task = Composed.ok (title n) (content n) (card n)) :
    approveLoop w task rules =
      (rules.flatMap fun n =>
        if n.Enabled = true ∧ StatusWaitingApprove ∈ n.NotifyTypes then
          [Event.compose n, Event.send (title n) (content n) n (card n)]
        else [], Ret.nil) := by
  induction rules with
  | nil => rfl
  | cons n rest ih =>
    have hrest := ih (fun m hm => hc m (List.mem_cons_of_mem _ hm))
    have hn := hc n (List.mem_cons_self _ _)
    unfold approveLoop
    cases hE : n.Enabled <;> by_cases hM : StatusWaitingApprove ∈ n.NotifyTypes <;>
      simp [hE, hM, hn, hrest, setHas]

/-- Every event of the approval loop concerns an enabled rule subscribed to the
waiting-for-approval pseudo-status. -/
theorem approveLoop_rule {Card : Type} (w : Service Card) (task : Option WorkflowTask)
    (rules : List NotifyCtl) (e : Event Card) (he : e ∈ (approveLoop w task rules).1) :
    ∃ n ∈ rules, n.Enabled = true ∧ StatusWaitingApprove ∈ n.NotifyTypes ∧
      (e = Event.compose n ∨ ∃ t c k, e = Event.send t c n k) := by
  induction rules with
  | nil => simp [approveLoop] at he
  | cons n rest ih =>
    unfold approveLoop at he
    by_cases hM : StatusWaitingApprove ∈ n.NotifyTypes
    · have hM2 : setHas n.NotifyTypes StatusWaitingApprove = true := (setHas_iff _ _).mpr hM
      cases hE : n.Enabled
      · simp only [hM2, hE, Bool.not_true, Bool.not_false, if_true, if_false,
          Bool.false_eq_true] at he
        obtain ⟨m, hm, h⟩ := ih he; exact ⟨m, List.mem_cons_of_mem _ hm, h⟩
      · simp only [hM2, hE, Bool.not_true, Bool.not_false, if_true, if_false,
          Bool.false_eq_true] at he
        cases hG : w.getApproveNotificationContent n task with
        | err x =>
          simp only [hG, List.mem_singleton] at he
          exact ⟨n, List.mem_cons_self _ _, hE, hM, Or.inl he⟩
        | panic =>
          simp only [hG, List.mem_singleton] at he
          exact ⟨n, List.mem_cons_self _ _, hE, hM, Or.inl he⟩
        | ok t c k =>
          simp only [hG, List.mem_cons] at he
          rcases he with he | he | he
          · exact ⟨n, List.mem_cons_self _ _, hE, hM, Or.inl he⟩
          · exact ⟨n, List.mem_cons_self _ _, hE, hM, Or.inr ⟨t, c, k, he⟩⟩
          · obtain ⟨m, hm, h⟩ := ih he; exact ⟨m, List.mem_cons_of_mem _ hm, h⟩
    · have hM2 : setHas n.NotifyTypes StatusWaitingApprove = false := by
        rw [← Bool.not_eq_true, setHas_iff]; exact hM
      simp only [hM2, Bool.not_false, if_true] at he
      obtain ⟨m, hm, h⟩ := ih he; exact ⟨m, List.mem_cons_of_mem _ hm, h⟩

/-- Every event of `SendWorkflowTaskAproveNotifications` concerns an enabled rule
subscribed to the waiting-for-approval pseudo-status. -/
theorem approve_rule {Card : Type} (w : Service Card) (workflowName : String) (taskID : Int)
    (e : Event Card) (he : e ∈ (SendWorkflowTaskAproveNotifications w workflowName taskID).1) :
    ∃ n, n.Enabled = true ∧ StatusWaitingApprove ∈ n.NotifyTypes ∧
      (e = Event.compose n ∨ ∃ t c k, e = Event.send t c n k) := by
  unfold SendWorkflowTaskAproveNotifications at he
  rcases hf : w.workflowV4Find workflowName with ⟨resp, _ | err⟩ <;>
    rw [hf] at he <;> simp only [List.not_mem_nil] at he
  rcases hg : w.workflowTaskV4Find workflowName taskID with ⟨task, _ | err⟩ <;>
    rw [hg] at he <;> simp only [List.not_mem_nil] at he
  cases resp with
  | none => simp at he
  | some resp =>
    obtain ⟨n, _, h⟩ := approveLoop_rule w task resp.NotifyCtls e he
    exact ⟨n, h⟩

/-- C7: on the approval path, with both lookups and every composition succeeding, the
trace lists, in rule order, one compose and one send for exactly the rules that are
enabled and whose `NotifyTypes` contains the waiting-for-approval pseudo-status, and nil
is returned; a rule whose `NotifyTypes` lacks that pseudo-status is neither composed nor
sent, whatever the task is. -/
theorem approval_filter {Card : Type} (w : Service Card) (workflowName : String)
    (taskID : Int) (resp : WorkflowV4) (task : WorkflowTask)
    (title content : NotifyCtl → String) (card : NotifyCtl → Option Card)
    (hwf : w.workflowV4Find workflowName = (some resp, none))
    (htask : w.workflowTaskV4Find workflowName taskID = (some task, none))
    (hc : ∀ n ∈ resp.NotifyCtls,
      w.getApproveNotificationContent n (some task) =
        Composed.ok (title n) (content n) (card n)) :
    SendWorkflowTaskAproveNotifications w workflowName taskID =
      (resp.NotifyCtls.flatMap fun n =>
        if n.Enabled = true ∧ StatusWaitingApprove ∈ n.NotifyTypes then
          [Event.compose n, Event.send (title n) (content n) n (card n)]
        else [], Ret.nil) ∧
    ∀ n, StatusWaitingApprove ∉ n.NotifyTypes →
      Event.compose n ∉ (SendWorkflowTaskAproveNotifications w workflowName taskID).1 ∧
      ∀ t c k, Event.send t c n k ∉
        (SendWorkflowTaskAproveNotifications w workflowName taskID).1 := by
  constructor
  · unfold SendWorkflowTaskAproveNotifications
    rw [hwf, htask]
    exact approveLoop_trace w (some task) title content card resp.NotifyCtls hc
  · intro n hn
    constructor
    · intro he
      obtain ⟨m, _, hM, h | ⟨t, c, k, h⟩⟩ := approve_rule w workflowName taskID _ he
      · injection h with h
        exact hn (h ▸ hM)
      · cases h
    · intro t c k he
      obtain ⟨m, _, hM, h | ⟨t2, c2, k2, h⟩⟩ := approve_rule w workflowName taskID _ he
      · cases h
      · injection h with _ _ h _
        exact hn (h ▸ hM)

theorem approval_filter_witness :
    SendWorkflowTaskAproveNotifications (sampleService (some (sampleTask 7 StatusFailed), none))
        "wf" 7 =
      (sampleWorkflow.NotifyCtls.flatMap fun n =>
        if n.Enabled = true ∧ StatusWaitingApprove ∈ n.NotifyTypes then
          [Event.compose n, Event.send "t" "c" n none]
        else [], Ret.nil) ∧
    ∀ n, StatusWaitingApprove ∉ n.NotifyTypes →
      Event.compose n ∉
        (SendWorkflowTaskAproveNotifications
          (sampleService (some (sampleTask 7 StatusFailed), none)) "wf" 7).1 ∧
      ∀ t c k, Event.send t c n k ∉
        (SendWorkflowTaskAproveNotifications
          (sampleService (some (sampleTask 7 StatusFailed), none)) "wf" 7).1 :=
  approval_filter (sampleService (some (sampleTask 7 StatusFailed), none)) "wf" 7
    sampleWorkflow (sampleTask 7 StatusFailed) (fun _ => "t") (fun _ => "c") (fun _ => none)
    rfl rfl (fun _ _ => rfl)

end Instantmessage

namespace Instantmessage

/-! ## The repository loop -/

theorem prLinkBuilder_known (repo : Repository) (h : knownProvider repo.Source) :
    ∃ build, prLinkBuilder repo.Source = some build ∧
      ∀ id, build repo.Address repo.RepoOwner repo.RepoName id = prURL repo id := by
  have h21 : goStr "gitee" ≠ goStr "github" := by decide
  have h31 : goStr "gitlab" ≠ goStr "github" := by decide
  have h32 : goStr "gitlab" ≠ goStr "gitee" := by decide
  have h41 : goStr "gerrit" ≠ goStr "github" := by decide
  have h42 : goStr "gerrit" ≠ goStr "gitee" := by decide
  have h43 : goStr "gerrit" ≠ goStr "gitlab" := by decide
  unfold knownProvider at h
  rcases h with h | h | h | h <;>
    simp [prLinkBuilder, prURL, h, ProviderGithub, ProviderGitee, ProviderGitlab,
      ProviderGerrit, fmtD, h21, h31, h32, h41, h42, h43]

theorem prLinkBuilder_none_iff (source : GoString) :
    prLinkBuilder source = none ↔ ¬ knownProvider source := by
  unfold prLinkBuilder knownProvider ProviderGithub ProviderGitee ProviderGitlab ProviderGerrit
  simp only [beq_iff_eq]
  by_cases h1 : source = goStr "github"
  · rw [if_pos h1]
    exact ⟨fun h => (by cases h), fun h => absurd (Or.inl h1) h⟩
  · rw [if_neg h1]
    by_cases h2 : source = goStr "gitee"
    · rw [if_pos h2]
      exact ⟨fun h => (by cases h), fun h => absurd (Or.inr (Or.inl h2)) h⟩
    · rw [if_neg h2]
      by_cases h3 : source = goStr "gitlab"
      · rw [if_pos h3]
        exact ⟨fun h => (by cases h), fun h => absurd (Or.inr (Or.inr (Or.inl h3))) h⟩
      · rw [if_neg h3]
        by_cases h4 : source = goStr "gerrit"
        · rw [if_pos h4]
          exact ⟨fun h => (by cases h), fun h => absurd (Or.inr (Or.inr (Or.inr h4))) h⟩
        · rw [if_neg h4]
          exact ⟨fun _ h => (by rcases h with h | h | h | h <;> contradiction), fun _ => rfl⟩

theorem sortInts_eq_nil_iff (prs : List Int) : sortInts prs = [] ↔ prs = [] := by
  have hperm : (sortInts prs).Perm prs := List.perm_insertionSort _ _
  constructor
  · intro h
    rw [h] at hperm
    exact hperm.symm.eq_nil
  · intro h
    rw [h]
    rfl

theorem prLinks_known (repo : Repository) (h : knownProvider repo.Source) :
    prLinks repo = some ((sortInts repo.PRs).map (prEntry repo)) := by
  obtain ⟨build, hb, hurl⟩ := prLinkBuilder_known repo h
  unfold prLinks
  rw [hb]
  cases hs : sortInts repo.PRs with
  | nil => rfl
  | cons a l =>
    simp only [Option.some.injEq]
    apply List.map_congr_left
    intro id _
    simp [prEntry, hurl, fmtD]

/-- The PR links of a repository panic exactly when its provider has no link builder and
there is a PR to link. -/
theorem prLinks_none_iff (repo : Repository) :
    prLinks repo = none ↔ ¬ knownProvider repo.Source ∧ repo.PRs ≠ [] := by
  rw [← prLinkBuilder_none_iff, Ne, ← sortInts_eq_nil_iff]
  unfold prLinks
  cases hs : sortInts repo.PRs <;> cases hb : prLinkBuilder repo.Source <;> simp

theorem repoStep_none_iff (st : RepoInfo) (repo : Repository) :
    repoStep st repo = none ↔ prLinks repo = none := by
  unfold repoStep
  cases prLinks repo <;> simp

/-- The state left by the loop body for a repository of a known provider. -/
theorem repoStep_known (st : RepoInfo) (repo : Repository) (h : knownProvider repo.Source) :
    ∃ st1, repoStep st repo = some st1 ∧
      st1.prInfoList = (sortInts repo.PRs).map (prEntry repo) ∧
      st1.branchTag = (if repo.Tag ≠ [] then repo.Tag else repo.Branch) ∧
      st1.commitMsgs = splitNewline (trimNewline repo.CommitMessage) ∧
      (8 < repo.CommitID.length →
        st1.commitID = repo.CommitID.take 8 ∧
        st1.gitCommitURL = repo.Address ++ goStr "/" ++ repo.RepoOwner ++ goStr "/" ++
          repo.RepoName ++ goStr "/commit/" ++ repo.CommitID.take 8) := by
  unfold repoStep
  rw [prLinks_known repo h]
  refine ⟨_, rfl, rfl, ?_, rfl, ?_⟩
  · by_cases ht : repo.Tag = [] <;> simp [ht]
  · intro hlen
    simp [hlen]

/-- Past index 0 the loop runs its body only for flagged repositories; with at most one
of them the result is the body applied to it. -/
theorem repoLoop_tail (st : RepoInfo) (k : Nat) (rest : List Repository)
    (huniq : (rest.filter (·.IsPrimary)).length ≤ 1) :
    repoLoop st (k + 1) rest =
      match rest.find? (·.IsPrimary) with
      | none => some st
      | some p => repoStep st p := by
  induction rest generalizing st k with
  | nil => rfl
  | cons r rest ih =>
    unfold repoLoop
    cases hr : r.IsPrimary
    · have huniq2 : (rest.filter (·.IsPrimary)).length ≤ 1 := by
        simpa [List.filter_cons, hr] using huniq
      simp only [Nat.add_one_ne_zero, beq_iff_eq, Bool.or_false, if_false, Bool.false_eq_true,
        List.find?_cons, hr]
      exact ih st (k + 1) huniq2
    · have hall : ∀ a ∈ rest, a.IsPrimary = false := by
        simpa [List.filter_cons, hr] using huniq
      have hnone : rest.filter (·.IsPrimary) = [] := by
        rw [List.filter_eq_nil_iff]
        intro a ha
        simp [hall a ha]
      have hfind : rest.find? (·.IsPrimary) = none := by
        rw [List.find?_eq_none]
        intro x hx
        simp [hall x hx]
      simp only [Bool.or_true, if_true, List.find?_cons, hr]
      cases hs : repoStep st r with
      | none => rfl
      | some st1 =>
        simp only
        rw [ih st1 (k + 1) (by simp [hnone]), hfind]

/-- With at most one flagged repository and known providers throughout, the loop ends in
the state its body leaves for the primary repository. -/
theorem repoLoop_primary (repos : List Repository) (p : Repository)
    (huniq : (repos.filter (·.IsPrimary)).length ≤ 1)
    (hprov : ∀ r ∈ repos, knownProvider r.Source)
    (hp : primaryRepository repos = some p) :
    p ∈ repos ∧ ∃ st0 st, repoLoop RepoInfo.init 0 repos = some st ∧ repoStep st0 p = some st := by
  cases repos with
  | nil => simp [primaryRepository] at hp
  | cons r rest =>
    obtain ⟨st1, hst1, -⟩ := repoStep_known RepoInfo.init r (hprov r (List.mem_cons_self _ _))
    have hloop : repoLoop RepoInfo.init 0 (r :: rest) = repoLoop st1 (0 + 1) rest := by
      rw [repoLoop]
      simp [hst1]
    have huniq2 : (rest.filter (·.IsPrimary)).length ≤ 1 := by
      rw [List.filter_cons] at huniq
      split at huniq
      · simp only [List.length_cons] at huniq; omega
      · exact huniq
    rw [hloop, repoLoop_tail st1 0 rest huniq2]
    cases hf : rest.find? (·.IsPrimary) with
    | none =>
      have hpr : p = r := by
        simp only [primaryRepository, List.find?_cons, hf, List.head?_cons] at hp
        cases hr : r.IsPrimary <;> simp [hr] at hp <;> exact hp.symm
      subst hpr
      exact ⟨List.mem_cons_self _ _, RepoInfo.init, st1, rfl, hst1⟩
    | some q =>
      have hq : q ∈ rest := List.mem_of_find?_eq_some hf
      have hqp : q.IsPrimary = true := by
        have := List.find?_some hf
        simpa using this
      have hr : r.IsPrimary = false := by
        cases hr : r.IsPrimary
        · rfl
        · exfalso
          have hmem : q ∈ rest.filter (·.IsPrimary) := List.mem_filter.mpr ⟨hq, by simpa using hqp⟩
          have hpos : 0 < (rest.filter (·.IsPrimary)).length := List.length_pos_of_mem hmem
          simp only [List.filter_cons, hr, if_true, List.length_cons] at huniq
          omega
      have hpq : p = q := by
        simp only [primaryRepository, List.find?_cons, hr, hf] at hp
        simpa using hp.symm
      subst hpq
      obtain ⟨st2, hst2, -⟩ := repoStep_known st1 p (hprov p (List.mem_cons_of_mem _ hq))
      exact ⟨List.mem_cons_of_mem _ hq, st1, st2, hst2, hst2⟩

/-- The loop panics exactly when the body panics for a repository it runs the body for:
one at overall index 0 or flagged primary. -/
theorem repoLoop_none_iff (st : RepoInfo) (idx : Nat) (repos : List Repository) :
    repoLoop st idx repos = none ↔
      ∃ (j : Nat) (r : Repository), repos[j]? = some r ∧
        (idx + j = 0 ∨ r.IsPrimary = true) ∧ prLinks r = none := by
  induction repos generalizing st idx with
  | nil => simp [repoLoop]
  | cons b rest ih =>
    unfold repoLoop
    constructor
    · intro h
      by_cases hrun : (idx == 0 || b.IsPrimary) = true
      · rw [if_pos hrun] at h
        cases hs : repoStep st b with
        | none =>
          refine ⟨0, b, by simp, ?_, (repoStep_none_iff st b).mp hs⟩
          simpa using hrun
        | some st1 =>
          rw [hs] at h
          obtain ⟨j, r, hj, hp, hl⟩ := (ih st1 (idx + 1)).mp h
          refine ⟨j + 1, r, by simpa using hj, ?_, hl⟩
          rcases hp with hp | hp
          · omega
          · exact Or.inr hp
      · rw [if_neg hrun] at h
        obtain ⟨j, r, hj, hp, hl⟩ := (ih st (idx + 1)).mp h
        refine ⟨j + 1, r, by simpa using hj, ?_, hl⟩
        rcases hp with hp | hp
        · omega
        · exact Or.inr hp
    · rintro ⟨j, r, hj, hp, hl⟩
      cases j with
      | zero =>
        have hbr : b = r := by simpa using hj
        subst hbr
        have hrun : (idx == 0 || b.IsPrimary) = true := by
          rcases hp with hp | hp
          · have : idx = 0 := by omega
            simp [this]
          · simp [hp]
        rw [if_pos hrun, (repoStep_none_iff st b).mpr hl]
      | succ j =>
        have hj2 : rest[j]? = some r := by simpa using hj
        have hp2 : idx + 1 + j = 0 ∨ r.IsPrimary = true := by
          rcases hp with hp | hp
          · omega
          · exact Or.inr hp
        by_cases hrun : (idx == 0 || b.IsPrimary) = true
        · rw [if_pos hrun]
          cases hs : repoStep st b with
          | none => rfl
          | some st1 => exact (ih st1 (idx + 1)).mpr ⟨j, r, hj2, hp2, hl⟩
        · rw [if_neg hrun]
          exact (ih st (idx + 1)).mpr ⟨j, r, hj2, hp2, hl⟩

/-- Assembling the template text panics, on a nil link-builder call, exactly when a
repository at index 0 or flagged primary has an unknown provider and a PR to link. -/
theorem buildJobTpl_none_iff (jobSpec : JobTaskFreestyleSpec) :
    buildJobTpl jobSpec = none ↔
      ∃ (i : Nat) (r : Repository), (reposOf jobSpec.Steps)[i]? = some r ∧
        (i = 0 ∨ r.IsPrimary = true) ∧ ¬ knownProvider r.Source ∧ r.PRs ≠ [] := by
  have hb : buildJobTpl jobSpec = none ↔
      repoLoop RepoInfo.init 0 (reposOf jobSpec.Steps) = none := by
    unfold buildJobTpl
    cases repoLoop RepoInfo.init 0 (reposOf jobSpec.Steps) <;> simp
  rw [hb, repoLoop_none_iff]
  simp only [Nat.zero_add, prLinks_none_iff]

/-- The call `strings.Join(elems, sep)` is the list intercalation. -/
theorem stringsJoin_eq (elems : List GoString) (sep : GoString) :
    stringsJoin elems sep = sep.intercalate elems := by
  induction elems with
  | nil => rfl
  | cons a rest ih =>
    cases rest with
    | nil => simp [stringsJoin, List.intercalate]
    | cons b rest =>
      rw [stringsJoin, ih]
      simp [List.intercalate, List.intersperse]

end Instantmessage

namespace Instantmessage

/-! ## The commit id and the PR links in the job block -/

/-- When the primary repository's commit id has more than eight bytes, the loop leaves
its first eight bytes in `commitID` and at the end of the commit link. -/
theorem commitID_of_long_primary (repos : List Repository) (p : Repository)
    (huniq : (repos.filter (·.IsPrimary)).length ≤ 1)
    (hprov : ∀ r ∈ repos, knownProvider r.Source)
    (hp : primaryRepository repos = some p)
    (hlen : 8 < p.CommitID.length) :
    ∃ st, repoLoop RepoInfo.init 0 repos = some st ∧
      st.commitID = p.CommitID.take 8 ∧
      st.gitCommitURL = p.Address ++ goStr "/" ++ p.RepoOwner ++ goStr "/" ++ p.RepoName ++
        goStr "/commit/" ++ p.CommitID.take 8 := by
  obtain ⟨hmem, st0, st, hloop, hstep⟩ := repoLoop_primary repos p huniq hprov hp
  obtain ⟨st1, hst1, -, -, -, hc⟩ := repoStep_known st0 p (hprov p hmem)
  rw [hstep] at hst1
  cases hst1
  exact ⟨st, hloop, hc hlen⟩

/-- C8 (the code at the failing input): a single primary repository whose commit id has
exactly eight characters leaves `commitID` empty, so the job block is the bare header,
with neither the commit id nor the commit link, although the first eight characters of
the commit id are `0123abcd`. -/
theorem commitID_of_eight_chars_dropped :
    primaryRepository [repoShort] = some repoShort ∧
    repoShort.CommitID.length = 8 ∧
    repoShort.CommitID.take 8 = goStr "0123abcd" ∧
    (repoLoop RepoInfo.init 0 [repoShort]).map (·.commitID) = some [] ∧
    (repoLoop RepoInfo.init 0 [repoShort]).map (·.gitCommitURL) =
      some (goStr "https://github.com/koderover/zadig/commit/") ∧
    buildJobTpl jobShort = some jobHeader ∧
    buildJobContent echoLib sampleJob (goStr "dingding") jobShort = TplResult.ok jobHeader := by
  decide

/-- The text of `prInfo` for the links of a repository: empty without PRs, otherwise the
entries joined by single spaces and followed by one space. -/
theorem prInfoOf_map (p : Repository) (ids : List Int) (hperm : ids.Perm p.PRs) :
    prInfoOf (ids.map (prEntry p)) =
      if p.PRs = [] then [] else (goStr " ").intercalate (ids.map (prEntry p)) ++ goStr " " := by
  unfold prInfoOf
  rw [stringsJoin_eq]
  have hlen : (ids.map (prEntry p)).length = p.PRs.length := by
    rw [List.length_map, hperm.length_eq]
  by_cases hnil : p.PRs = []
  · have : ids = [] := by
      rw [hnil] at hperm
      exact hperm.eq_nil
    simp [hnil, this]
  · have : p.PRs.length ≠ 0 := fun h => hnil (List.length_eq_zero.mp h)
    simp [hlen, hnil, this]

/-- C9 (as stated, refuted): two repositories of known providers, the second flagged
primary with PRs `[5, 3]`, both with seven-character commit ids: the template text of the
job block is the bare header and no PR link is rendered. -/
theorem prInfo_not_rendered_without_commitID :
    ((reposOf jobSeven.Steps).filter (·.IsPrimary)).length ≤ 1 ∧
    (∀ r ∈ reposOf jobSeven.Steps, knownProvider r.Source) ∧
    primaryRepository (reposOf jobSeven.Steps) = some repoB7 ∧
    repoB7.PRs = [5, 3] ∧
    buildJobTpl jobSeven = some jobHeader ∧
    buildJobContent echoLib sampleJob (goStr "dingding") jobSeven = TplResult.ok jobHeader := by
  decide

/-- C9 (amended): for a build/freestyle job whose repository list has at most one flagged
repository and known providers throughout, and whose primary repository has a commit id
of more than eight bytes, the template text of the job block is the header, the code-info
line, the commit message and the image line; the code-info line holds the branch or tag,
then one `[#id](url)` entry per PR id of the primary repository, in ascending order of
the ids and with the url in the provider's shape, the entries joined by single spaces and
followed by one space (nothing when there is no PR), then the commit link. The job block
is what `getJobTaskTplExec` makes of this text. -/
theorem prInfo_of_primary {Tmpl : Type} (lib : TemplateLib Tmpl) (job : JobTask)
    (webHookType : GoString) (jobSpec : JobTaskFreestyleSpec) (p : Repository)
    (huniq : ((reposOf jobSpec.Steps).filter (·.IsPrimary)).length ≤ 1)
    (hprov : ∀ r ∈ reposOf jobSpec.Steps, knownProvider r.Source)
    (hp : primaryRepository (reposOf jobSpec.Steps) = some p)
    (hlen : 8 < p.CommitID.length) :
    ∃ (ids : List Int) (tpl : GoString),
      ids.Sorted (· ≤ ·) ∧ ids.Perm p.PRs ∧
      tpl = jobHeader ++
        (dingPrefix ++ goStr "**????????????**???" ++
          (if p.Tag ≠ [] then p.Tag else p.Branch) ++ goStr " " ++
          (if p.PRs = [] then []
            else (goStr " ").intercalate (ids.map (prEntry p)) ++ goStr " ") ++
          goStr "[" ++ p.CommitID.take 8 ++ goStr "](" ++
          (p.Address ++ goStr "/" ++ p.RepoOwner ++ goStr "/" ++ p.RepoName ++
            goStr "/commit/" ++ p.CommitID.take 8) ++
          goStr ") \n" ++ dingPrefix ++ goStr "**????????????**???" ++
          commitMsgLines (splitNewline (trimNewline p.CommitMessage))) ++
        imageLine (imageOf jobSpec.Envs) ∧
      buildJobTpl jobSpec = some tpl ∧
      buildJobContent lib job webHookType jobSpec =
        getJobTaskTplExec lib tpl { Job := job, WebHookType := webHookType } := by
  obtain ⟨hmem, st0, st, hloop, hstep⟩ :=
    repoLoop_primary (reposOf jobSpec.Steps) p huniq hprov hp
  obtain ⟨st1, hst1, hl, hb, hm, hc⟩ := repoStep_known st0 p (hprov p hmem)
  rw [hstep] at hst1
  cases hst1
  obtain ⟨hid, hurl⟩ := hc hlen
  have hperm : (sortInts p.PRs).Perm p.PRs := List.perm_insertionSort _ _
  have hpos : st.commitID.length > 0 := by
    rw [hid, List.length_take]
    omega
  have htpl : buildJobTpl jobSpec = some (jobHeader ++
      (dingPrefix ++ goStr "**????????????**???" ++
        (if p.Tag ≠ [] then p.Tag else p.Branch) ++ goStr " " ++
        (if p.PRs = [] then []
          else (goStr " ").intercalate ((sortInts p.PRs).map (prEntry p)) ++ goStr " ") ++
        goStr "[" ++ p.CommitID.take 8 ++ goStr "](" ++
        (p.Address ++ goStr "/" ++ p.RepoOwner ++ goStr "/" ++ p.RepoName ++
          goStr "/commit/" ++ p.CommitID.take 8) ++
        goStr ") \n" ++ dingPrefix ++ goStr "**????????????**???" ++
        commitMsgLines (splitNewline (trimNewline p.CommitMessage))) ++
      imageLine (imageOf jobSpec.Envs)) := by
    unfold buildJobTpl
    rw [hloop]
    simp only [commitLines, if_pos hpos]
    rw [hl, hb, hm, hurl, hid, prInfoOf_map p (sortInts p.PRs) hperm]
  refine ⟨sortInts p.PRs, _, List.sorted_insertionSort _ _, hperm, rfl, htpl, ?_⟩
  unfold buildJobContent
  rw [htpl]

theorem prInfo_of_primary_witness :
    (∃ (ids : List Int) (tpl : GoString),
      ids.Sorted (· ≤ ·) ∧ ids.Perm repoB.PRs ∧
      tpl = jobHeader ++
        (dingPrefix ++ goStr "**????????????**???" ++
          (if repoB.Tag ≠ [] then repoB.Tag else repoB.Branch) ++ goStr " " ++
          (if repoB.PRs = [] then []
            else (goStr " ").intercalate (ids.map (prEntry repoB)) ++ goStr " ") ++
          goStr "[" ++ repoB.CommitID.take 8 ++ goStr "](" ++
          (repoB.Address ++ goStr "/" ++ repoB.RepoOwner ++ goStr "/" ++ repoB.RepoName ++
            goStr "/commit/" ++ repoB.CommitID.take 8) ++
          goStr ") \n" ++ dingPrefix ++ goStr "**????????????**???" ++
          commitMsgLines (splitNewline (trimNewline repoB.CommitMessage))) ++
        imageLine (imageOf jobAB.Envs) ∧
      buildJobTpl jobAB = some tpl ∧
      buildJobContent echoLib sampleJob (goStr "dingding") jobAB =
        getJobTaskTplExec echoLib tpl { Job := sampleJob, WebHookType := goStr "dingding" }) ∧
    buildJobContent echoLib sampleJob (goStr "dingding") jobAB =
      TplResult.ok (jobHeader ++ dingPrefix ++
        goStr ("**????????????**???v1.2.0 " ++
          "[#3](https://gitlab.example.com/team/svc/merge_requests/3) " ++
          "[#5](https://gitlab.example.com/team/svc/merge_requests/5) " ++
          "[fedcba98](https://gitlab.example.com/team/svc/commit/fedcba98) \n") ++
        dingPrefix ++ goStr "**????????????**???fix build \n" ++
        dingPrefix ++ goStr "**????????????**???registry.example.com/svc:1 \n") :=
  ⟨prInfo_of_primary echoLib sampleJob (goStr "dingding") jobAB repoB
    (by decide) (by decide) (by decide) (by decide), by decide⟩

end Instantmessage
namespace Util

/-- The result of `GeneReleaseName` is that of its last call alone: only `$Service$` is
replaced in `namingRule`. -/
theorem GeneReleaseName_eq (namingRule projectName namespace_ envName service : String) :
    GeneReleaseName namingRule projectName namespace_ envName service =
      ReplaceAll namingRule "$Service$" service := rfl

/-- C10 (the code at the failing input): the naming rule `$Product$-$Namespace$-$Service$`
keeps its `$Product$` and `$Namespace$` placeholders; only `$Service$` is replaced. -/
theorem GeneReleaseName_keeps_product_and_namespace :
    GeneReleaseName "$Product$-$Namespace$-$Service$" "proj" "ns" "dev" "svc" =
      "$Product$-$Namespace$-svc" ∧
    GeneReleaseName "$Product$-$Namespace$-$Service$" "proj" "ns" "dev" "svc" ≠
      "proj-ns-svc" := by
  decide

end Util

namespace Instantmessage

/-! ## The nil link builder -/

theorem prLinkBuilder_isSome_iff (source : GoString) :
    (prLinkBuilder source).isSome = true ↔ knownProvider source := by
  rw [← not_iff_not, ← prLinkBuilder_none_iff]
  cases prLinkBuilder source <;> simp

theorem getJobTaskTplExec_panic_iff {Tmpl : Type} (lib : TemplateLib Tmpl)
    (tplcontent : GoString) (args : JobTaskNotification) :
    getJobTaskTplExec lib tplcontent args = TplResult.panic ↔
      ∃ e, lib.Parse tplcontent = Except.error e := by
  unfold getJobTaskTplExec
  cases hp : lib.Parse tplcontent with
  | error e => simp
  | ok tmpl => cases hx : lib.Execute tmpl args <;> simp [hx]

/-- C11 (as stated, refuted): the only repository of the job has a provider outside the
four and no PRs, so every repository at index 0 or flagged primary has one of the four
providers or no PRs; yet no link builder is defined for it: `prLinkBuilder` stays nil. The
nil builder is not called, and the job's template text is assembled. -/
theorem link_builder_nil_without_PRs :
    (∀ (i : Nat) (r : Repository), (reposOf jobCodehubNoPR.Steps)[i]? = some r →
      (i = 0 ∨ r.IsPrimary = true) → knownProvider r.Source ∨ r.PRs = []) ∧
    (reposOf jobCodehubNoPR.Steps)[0]? = some repoCodehubNoPR ∧
    (prLinkBuilder repoCodehubNoPR.Source).isSome = false ∧
    (buildJobTpl jobCodehubNoPR).isSome = true := by
  refine ⟨?_, by decide, by decide, by decide⟩
  intro i r hi _
  have hmem : r ∈ reposOf jobCodehubNoPR.Steps := List.getElem?_mem hi
  have hall : ∀ x ∈ reposOf jobCodehubNoPR.Steps, x.PRs = [] := by decide
  exact Or.inr (hall r hmem)

/-- C11 (amended): assembling the job block of a build/freestyle job calls the nil link
builder, and so panics, exactly when some repository at index 0 or flagged primary has a
provider other than github, gitee, gitlab and gerrit together with a non-empty PR list. A
link builder is defined exactly for the four providers; for another provider without PRs
it stays nil and is not called. When every repository at index 0 or flagged primary has
one of the four providers or no PRs, the template text is assembled and the job block is
what `getJobTaskTplExec` makes of it: the content, an `Execute` error, or the panic of
`template.Must` on a text that does not parse. So the block panics exactly on a nil
link-builder call or a parse error. -/
theorem nil_link_builder_panic {Tmpl : Type} (lib : TemplateLib Tmpl) (job : JobTask)
    (webHookType : GoString) (jobSpec : JobTaskFreestyleSpec) :
    (buildJobTpl jobSpec = none ↔
      ∃ (i : Nat) (r : Repository), (reposOf jobSpec.Steps)[i]? = some r ∧
        (i = 0 ∨ r.IsPrimary = true) ∧ ¬ knownProvider r.Source ∧ r.PRs ≠ []) ∧
    (∀ source, (prLinkBuilder source).isSome = true ↔ knownProvider source) ∧
    ((∀ (i : Nat) (r : Repository), (reposOf jobSpec.Steps)[i]? = some r →
        (i = 0 ∨ r.IsPrimary = true) → knownProvider r.Source ∨ r.PRs = []) →
      ∃ tpl, buildJobTpl jobSpec = some tpl ∧
        buildJobContent lib job webHookType jobSpec =
          getJobTaskTplExec lib tpl { Job := job, WebHookType := webHookType }) ∧
    (buildJobContent lib job webHookType jobSpec = TplResult.panic ↔
      (∃ (i : Nat) (r : Repository), (reposOf jobSpec.Steps)[i]? = some r ∧
        (i = 0 ∨ r.IsPrimary = true) ∧ ¬ knownProvider r.Source ∧ r.PRs ≠ []) ∨
      ∃ tpl e, buildJobTpl jobSpec = some tpl ∧ lib.Parse tpl = Except.error e) := by
  have hiff := buildJobTpl_none_iff jobSpec
  refine ⟨hiff, prLinkBuilder_isSome_iff, ?_, ?_⟩
  · intro hall
    cases htpl : buildJobTpl jobSpec with
    | some tpl => exact ⟨tpl, rfl, by simp [buildJobContent, htpl]⟩
    | none =>
      exfalso
      obtain ⟨i, r, hi, hp, hk, hprs⟩ := hiff.mp htpl
      rcases hall i r hi hp with h | h
      · exact hk h
      · exact hprs h
  · rw [← hiff]
    unfold buildJobContent
    cases htpl : buildJobTpl jobSpec with
    | none => simp
    | some tpl =>
      simp only [getJobTaskTplExec_panic_iff, Option.some.injEq, false_or, reduceCtorEq]
      constructor
      · rintro ⟨e, he⟩
        exact ⟨tpl, e, rfl, he⟩
      · rintro ⟨tpl2, e, h2, he⟩
        subst h2
        exact ⟨e, he⟩

theorem nil_link_builder_panic_witness :
    buildJobTpl jobCodehub = none ∧
    (∃ tpl, buildJobTpl jobAB = some tpl ∧
      buildJobContent echoLib sampleJob (goStr "wechat") jobAB =
        getJobTaskTplExec echoLib tpl { Job := sampleJob, WebHookType := goStr "wechat" }) ∧
    buildJobContent rejectLib sampleJob (goStr "wechat") jobAB = TplResult.panic :=
  ⟨(nil_link_builder_panic echoLib sampleJob (goStr "wechat") jobCodehub).1.mpr
      ⟨0, repoCodehub, by decide, Or.inl rfl, by decide, by decide⟩,
    (nil_link_builder_panic echoLib sampleJob (goStr "wechat") jobAB).2.2.1 (by
      intro i r hi _
      have hmem : r ∈ reposOf jobAB.Steps := List.getElem?_mem hi
      have hall : ∀ x ∈ reposOf jobAB.Steps, knownProvider x.Source := by decide
      exact Or.inl (hall r hmem)),
    (nil_link_builder_panic rejectLib sampleJob (goStr "wechat") jobAB).2.2.2.mpr
      (Or.inr ⟨_, _, (by decide : buildJobTpl jobAB = some (jobHeader ++ dingPrefix ++
        goStr ("**????????????**???v1.2.0 " ++
          "[#3](https://gitlab.example.com/team/svc/merge_requests/3) " ++
          "[#5](https://gitlab.example.com/team/svc/merge_requests/5) " ++
          "[fedcba98](https://gitlab.example.com/team/svc/commit/fedcba98) \n") ++
        dingPrefix ++ goStr "**????????????**???fix build \n" ++
        dingPrefix ++ goStr "**????????????**???registry.example.com/svc:1 \n")), rfl⟩)⟩

end Instantmessage
